import Mathlib

/-
Verification of the SRGSSR extractor module (yt_dlp/extractor/srgssr.py).

The module consists of two collaborating pieces:
* the Router (`SRGSSRPlayIE`): matches a play-site URL, extracts a
  (business unit, media type, media id) triple and re-dispatches to the
  canonical identifier `srgssr:{bu[:3]}:{type}:{id}`;
* the Resolver (`SRGSSRIE`): parses the canonical identifier with its
  `_VALID_URL` pattern, fetches a MediaComposition JSON document, selects a
  chapter, checks block reasons and assembles formats and subtitles.

The shallow embedding below translates the pure data-flow of the Python
source.  Network fetches (`_download_json`, `_download_webpage`), the host
framework's manifest parsers (`_extract_m3u8_formats_and_subtitles`,
`_extract_akamai_formats_and_subtitles`) and the Python standard library's
`urllib.parse.urljoin` are outside the module; where the module hands data to
them they appear either as function parameters or as explicit
`FormatAction.delegated*` values recording exactly the URL and format id the
module constructed.
-/

namespace SRGSSR

/-- Python truthiness of an optional string: `None` and `''` are falsy,
every other string is truthy. -/
def truthy : Option String → Bool
  | none => false
  | some s => !(s == "")

/-- Python `a or b` on two optional strings: yields `a` when `a` is truthy,
otherwise `b` (even when `b` is falsy). -/
def pyOr (a b : Option String) : Option String :=
  if truthy a then a else b

/-- A stream source, one element of a chapter's `resourceList`
(JSON object keys: `url`, `protocol`, `quality`, `encoding`, `tokenType`). -/
structure Resource where
  url : Option String := none
  protocol : Option String := none
  quality : Option String := none
  encoding : Option String := none
  tokenType : Option String := none
deriving Repr, DecidableEq

/-- One element of a chapter's `subtitleList` (keys `url` and `locale`). -/
structure SubEntry where
  url : Option String := none
  locale : Option String := none
deriving Repr, DecidableEq

/-- A chapter of the media composition.  Fields carry the JSON keys the
source reads; numeric JSON fields read through `int_or_none` are modelled as
`Option Int`. -/
structure Chapter where
  id : Option String := none
  urn : Option String := none
  blockReason : Option String := none
  fullLengthUrn : Option String := none
  markIn : Option Int := none
  markOut : Option Int := none
  position : Option Int := none
  resourceList : List Resource := []
  subtitleList : List SubEntry := []
  podcastSdUrl : Option String := none
  podcastHdUrl : Option String := none
  title : Option String := none
  description : Option String := none
  lead : Option String := none
  vendor : Option String := none
deriving Repr, DecidableEq

instance : Inhabited Chapter := ⟨{}⟩

/-- The top-level MediaComposition document: the chapter list plus the
show/episode metadata the source reads in `_real_extract`. -/
structure MediaComposition where
  chapterList : List Chapter := []
  showTitle : Option String := none
  seasonNumber : Option Int := none
  episodeNumber : Option Int := none
deriving Repr, DecidableEq

/-- Errors raised by the extractor: `extractorError msg expected` models
`ExtractorError(msg, expected=expected)` and `geoRestricted msg countries`
models `self.raise_geo_restricted(msg=..., countries=...)`. -/
inductive ExtractErr where
  | extractorError (msg : String) (expected : Bool)
  | geoRestricted (msg : String) (countries : List String)
deriving Repr, DecidableEq

/-- `SRGSSRIE._ERRORS`: the fixed block-reason taxonomy mapped to messages
(the `ENDDATE` entry is commented out in the source and therefore absent). -/
def ERRORS : String → Option String
  | "AGERATING12" =>
      some "To protect children under the age of 12, this video is only available between 8 p.m. and 6 a.m."
  | "AGERATING18" =>
      some "To protect children under the age of 18, this video is only available between 11 p.m. and 5 a.m."
  | "GEOBLOCK" =>
      some "For legal reasons, this video is only available in Switzerland."
  | "LEGAL" =>
      some "The video cannot be transmitted for legal reasons."
  | "STARTDATE" =>
      some "This video is not yet available. Please try again later."
  | _ => none

/-- `SRGSSRIE._GEO_COUNTRIES`. -/
def GEO_COUNTRIES : List String := ["CH"]

/-- `SRGSSRIE.IE_NAME`: the extractor name used in error messages, derived by
the host framework from the class name `SRGSSRIE`. -/
def IE_NAME : String := "SRGSSR"

/-- `SRGSSRIE._DEFAULT_LANGUAGE_CODES`: per-business-unit default subtitle
locale. -/
def DEFAULT_LANGUAGE_CODES : String → Option String
  | "srf" => some "de"
  | "rts" => some "fr"
  | "rsi" => some "it"
  | "rtr" => some "rm"
  | "swi" => some "en"
  | _ => none

/-- The chapter predicate of `_get_media_data`:
`ch.get('id') == media_id or ch.get('urn') == f'urn:{bu}:video:{media_id}'`. -/
def chapterMatches (bu mediaId : String) (ch : Chapter) : Bool :=
  ch.id == some mediaId || ch.urn == some ("urn:" ++ bu ++ ":video:" ++ mediaId)

/-- Chapter selection in `_get_media_data`: the first chapter matching the
requested id or synthesized URN, else `chapter_list[0]`.  The source indexes
`chapter_list[0]` only after establishing the list is non-empty; `headD`
with the default chapter models that total context. -/
def selectChapter (bu mediaId : String) (chapterList : List Chapter) : Chapter :=
  match chapterList.find? (chapterMatches bu mediaId) with
  | some ch => ch
  | none => chapterList.headD {}

/-- Parent-chapter selection in `_get_media_data`: the first chapter without
a (truthy) `fullLengthUrn`, else `chapter_list[0]`. -/
def parentChapterOf (chapterList : List Chapter) : Chapter :=
  match chapterList.find? (fun ch => !truthy ch.fullLengthUrn) with
  | some ch => ch
  | none => chapterList.headD {}

/-- The block-reason check of `_get_media_data`
(`if block_reason and block_reason in self._ERRORS: ...`): a truthy reason in
the taxonomy raises; `GEOBLOCK` raises the geo-restriction error with
countries `['CH']`, the rest raise an expected `ExtractorError` with the
mapped message; anything else proceeds. -/
def checkBlockReason (blockReason : Option String) : Except ExtractErr Unit :=
  match blockReason with
  | none => .ok ()
  | some br =>
    if br == "" then .ok ()
    else
      match ERRORS br with
      | none => .ok ()
      | some message =>
        if br == "GEOBLOCK" then
          .error (.geoRestricted message GEO_COUNTRIES)
        else
          .error (.extractorError (IE_NAME ++ " said: " ++ message) true)

/-- `SRGSSRIE._get_media_data` after the JSON fetch: fail when the chapter
list is empty, select the chapter, check its block reason, and pair it with
the parent chapter the source stores under `media_data['parentChapter']`.
The `mediaType` argument only shapes the HTTP query (`onlyChapters`) of the
network fetch, which is outside this embedding. -/
def getMediaData (bu mediaType mediaId : String) (full : MediaComposition) :
    Except ExtractErr (Chapter × Chapter × MediaComposition) :=
  let _ := mediaType
  if full.chapterList.isEmpty then
    .error (.extractorError "No chapters found" false)
  else
    let mediaData := selectChapter bu mediaId full.chapterList
    match checkBlockReason mediaData.blockReason with
    | .error e => .error e
    | .ok _ => .ok (mediaData, parentChapterOf full.chapterList, full)

/-- The `qualities(['SD', 'HD'])` ranking function `q` of `_real_extract`:
`list.index(qid)` when present, and `-1` on the `ValueError` raised for an
absent or `None` quality id. -/
def qualityRank (qid : Option String) : Int :=
  match qid with
  | none => -1
  | some s =>
    match ["SD", "HD"].findIdx? (fun x => x == s) with
    | some i => (i : Int)
    | none => -1

/-- The `join_nonempty` utility with its default delimiter: joins the truthy
values with `-`, skipping `None` and empty strings. -/
def joinNonempty (parts : List (Option String)) : String :=
  String.intercalate "-" ((parts.filterMap id).filter (fun s => !(s == "")))

/-- Pads a remainder of a division by 1000 to three digits, as the
fractional part of Python's `f'{x:.3f}'`. -/
def pad3 (n : Nat) : String :=
  if n < 10 then "00" ++ toString n
  else if n < 100 then "0" ++ toString n
  else toString n

/-- Decimal rendering of `ms / 1000` milliseconds with exactly three
fractional digits.  Models the Python expression `f'{mark / 1000:.3f}'`:
for every millisecond count of realistic magnitude the binary double
`mark / 1000` rounds back to this exact three-digit decimal. -/
def formatSeconds (ms : Int) : String :=
  if ms < 0 then
    "-" ++ (toString (ms.natAbs / 1000) ++ "." ++ pad3 (ms.natAbs % 1000))
  else
    toString (ms.natAbs / 1000) ++ "." ++ pad3 (ms.natAbs % 1000)

/-- Insertion into a Python `dict` viewed as an insertion-ordered
association list: an existing key keeps its position and receives the new
value, a new key is appended. -/
def dictSet (d : List (String × String)) (k v : String) : List (String × String) :=
  if d.any (fun p => p.1 == k) then
    d.map (fun p => if p.1 == k then (p.1, v) else p)
  else
    d ++ [(k, v)]

/-- Python `c in s` on a one-character needle. -/
def containsChar (s : String) (c : Char) : Bool :=
  s.data.any (fun a => a == c)

/-- Python `s.partition(c)` reduced to the pair the source uses: the text
before the first occurrence of `c` and the text after it (empty when `c`
does not occur).  Also serves as `s.split(c, 1)` under the guard that `c`
occurs. -/
def partitionAt (c : Char) : List Char → List Char × List Char
  | [] => ([], [])
  | a :: rest =>
    if a == c then ([], rest)
    else
      let p := partitionAt c rest
      (a :: p.1, p.2)

/-- Python `s.split(c)` for a one-character separator. -/
def splitOnChar (c : Char) : List Char → List (List Char)
  | [] => [[]]
  | a :: rest =>
    match splitOnChar c rest with
    | [] => [[]]
    | h :: t => if a == c then [] :: h :: t else (a :: h) :: t

/-- The query-string parsing loop of `_real_extract`:
`for param in query.split('&'): k, _, v = param.partition('='); params[k] = v`. -/
def parseQuery (query : String) : List (String × String) :=
  (splitOnChar '&' query.data).foldl
    (fun d param =>
      let kv := partitionAt '=' param
      dictSet d (String.mk kv.1) (String.mk kv.2))
    []

/-- Re-serialization of the parameter dict:
`"&".join(f'{k}={v}' for k, v in params.items())`. -/
def renderQuery (d : List (String × String)) : String :=
  String.intercalate "&" (d.map (fun p => p.1 ++ "=" ++ p.2))

/-- The segment time-window block of `_real_extract`: when the selected
chapter is a segment with known mark-in/mark-out, and the resource protocol
is `HLS`, and the URL contains `?`, split the URL at its first `?`, parse
the query into a dict, set `start` and `end` to the mark offsets in seconds
(three decimals), and re-assemble the URL; in every other case the URL is
returned unchanged. -/
def applySegmentWindow (isSegment : Bool) (markIn markOut : Option Int)
    (protocol : Option String) (url : String) : String :=
  match isSegment, markIn, markOut with
  | true, some mi, some mo =>
    let start := formatSeconds mi
    let stop := formatSeconds mo
    if protocol == some "HLS" && containsChar url '?' then
      let p := partitionAt '?' url.data
      let base := String.mk p.1
      let query := String.mk p.2
      let params := dictSet (dictSet (parseQuery query) "start" start) "end" stop
      base ++ "?" ++ renderQuery params
    else url
  | _, _, _ => url

/-- A normalized format entry as the HTTP/HTTPS and podcast branches build
it: `{'format_id': ..., 'url': ..., 'quality': q(quality)}`. -/
structure Format where
  format_id : String
  url : String
  quality : Int
deriving Repr, DecidableEq

/-- What the resource loop of `_real_extract` does with one resource:
either delegate the constructed URL to a host-framework extractor (Akamai
for `tokenType == 'AKAMAI'`, the m3u8 parser plus the direct subtitle scan
for plain `HLS`) or append a direct HTTP/HTTPS format entry. -/
inductive FormatAction where
  | delegatedAkamai (url : String) (formatId : String)
  | delegatedHls (url : String) (formatId : String)
  | direct (fmt : Format)
deriving Repr, DecidableEq

/-- The loop's format identifier
`join_nonempty(protocol, source.get('encoding'), quality)`. -/
def formatIdOf (source : Resource) : String :=
  joinNonempty [source.protocol, source.encoding, source.quality]

/-- The URL the loop iteration constructs: the source's URL (truthy by the
guard) with the segment time window applied. -/
def constructedUrl (isSegment : Bool) (markIn markOut : Option Int)
    (source : Resource) : String :=
  applySegmentWindow isSegment markIn markOut source.protocol
    (source.url.getD "")

/-- One iteration of the resource loop of `_real_extract`: skip resources
without a truthy URL (`if not format_url: continue`), build the format id
with `join_nonempty`, apply the segment time window to the URL, then
dispatch on the protocol.  The source's local variables `format_id` and
`format_url` are pure and appear here as `formatIdOf` and `constructedUrl`.
A resource with protocol `HDS` but no `AKAMAI` token type falls through
both branches and produces nothing, as in the source. -/
def processResource (isSegment : Bool) (markIn markOut : Option Int)
    (source : Resource) : Option FormatAction :=
  if !truthy source.url then none
  else if source.protocol == some "HDS" || source.protocol == some "HLS" then
    if source.tokenType == some "AKAMAI" then
      some (.delegatedAkamai (constructedUrl isSegment markIn markOut source)
        (formatIdOf source))
    else if source.protocol == some "HLS" then
      some (.delegatedHls (constructedUrl isSegment markIn markOut source)
        (formatIdOf source))
    else none
  else if source.protocol == some "HTTP" || source.protocol == some "HTTPS" then
    some (.direct ⟨formatIdOf source,
      constructedUrl isSegment markIn markOut source,
      qualityRank source.quality⟩)
  else none

/-- The resource list enumerated by `_real_extract`:
`media_data.get('resourceList') or []`, replaced by the parent chapter's
list when empty and the chapter is a segment. -/
def enumeratedResources (isSegment : Bool) (mediaData parent : Chapter) :
    List Resource :=
  if mediaData.resourceList.isEmpty && isSegment then parent.resourceList
  else mediaData.resourceList

/-- The resource loop of `_real_extract` over the enumerated resources. -/
def extractActions (isSegment : Bool) (mediaData parent : Chapter) :
    List FormatAction :=
  (enumeratedResources isSegment mediaData parent).filterMap
    (processResource isSegment mediaData.markIn mediaData.markOut)

/-- The format entries the module itself builds (the delegated manifest
parsers contribute their own entries outside this embedding). -/
def directFormats (actions : List FormatAction) : List Format :=
  actions.filterMap (fun a =>
    match a with
    | .direct f => some f
    | _ => none)

/-- The podcast URL field read for marker `p`:
`media_data.get(f'podcast{p}dUrl')`. -/
def podcastUrlField (mediaData : Chapter) (p : String) : Option String :=
  if p == "S" then mediaData.podcastSdUrl
  else if p == "H" then mediaData.podcastHdUrl
  else none

/-- The podcast block of `_real_extract`: only when
`int_or_none(media_data.get('position')) == 0`, and for each of the markers
`S` and `H` with a truthy podcast URL, append a `PODCAST-SD`/`PODCAST-HD`
format ranked by the same quality function. -/
def podcastFormats (mediaData : Chapter) : List Format :=
  if mediaData.position == some (0 : Int) then
    ["S", "H"].filterMap (fun p =>
      match podcastUrlField mediaData p with
      | none => none
      | some u =>
        if u == "" then none
        else some ⟨"PODCAST-" ++ (p ++ "D"), u, qualityRank (some (p ++ "D"))⟩)
  else []

/-- All format entries built locally by `_real_extract`, in source order:
the direct HTTP/HTTPS entries of the resource loop followed by the podcast
entries. -/
def allFormats (isSegment : Bool) (mediaData parent : Chapter) : List Format :=
  directFormats (extractActions isSegment mediaData parent) ++
    podcastFormats mediaData

/-- A subtitle track: the direct m3u8 scan stores `{'url': ..., 'name': ...}`
and the chapter subtitle loop stores `{'url': ...}` without a name. -/
structure SubTrack where
  url : String
  name : Option String := none
deriving Repr, DecidableEq

/-- `subtitles.setdefault(lang, []).append(track)` on a subtitle mapping
modelled as an insertion-ordered association list. -/
def addSub (subs : List (String × List SubTrack)) (lang : String)
    (t : SubTrack) : List (String × List SubTrack) :=
  if subs.any (fun p => p.1 == lang) then
    subs.map (fun p => if p.1 == lang then (p.1, p.2 ++ [t]) else p)
  else
    subs ++ [(lang, [t])]

/-- The chapter subtitle loop of `_real_extract` (video media only): skip
entries without a truthy URL, default the language to the per-business-unit
locale when the entry's `locale` is falsy.  The business unit is always one
of the five codes accepted by the URL patterns, so the table lookup the
source performs with `self._DEFAULT_LANGUAGE_CODES[bu]` never misses; the
`getD ""` covers the impossible miss totally. -/
def videoSubtitles (bu : String) (mediaData : Chapter) :
    List (String × List SubTrack) :=
  mediaData.subtitleList.foldl
    (fun subs sub =>
      match sub.url with
      | none => subs
      | some u =>
        if u == "" then subs
        else
          let lang := (pyOr sub.locale (DEFAULT_LANGUAGE_CODES bu)).getD ""
          addSub subs lang ⟨u, none⟩)
    []

/-- The normalized result of `_real_extract`, restricted to the fields whose
values the module itself computes.  The fields produced by shared utilities
over raw JSON values (`parse_iso8601` timestamp, `float_or_none` duration,
season and episode numbers) and the delegated manifest parsers' outputs are
carried by the host framework and are not re-modelled here; the `actions`
field records what was handed to the delegated extractors. -/
structure ExtractionResult where
  id : String
  title : Option String := none
  description : Option String := none
  formats : List Format := []
  actions : List FormatAction := []
  subtitles : List (String × List SubTrack) := []
  series : Option String := none
  channel : Option String := none
deriving Repr, DecidableEq

/-- `SRGSSRIE._real_extract` on an already-fetched MediaComposition: run
`_get_media_data`, enumerate resources, build format entries and subtitle
tracks, and assemble the normalized result whose `id` is the requested
media id. -/
def realExtract (bu mediaType mediaId : String) (full : MediaComposition) :
    Except ExtractErr ExtractionResult :=
  match getMediaData bu mediaType mediaId full with
  | .error e => .error e
  | .ok (mediaData, parent, fullData) =>
    let isSegment := truthy mediaData.fullLengthUrn
    let actions := extractActions isSegment mediaData parent
    let formats := directFormats actions ++ podcastFormats mediaData
    let subs := if mediaType == "video" then videoSubtitles bu mediaData else []
    .ok {
      id := mediaId
      title := mediaData.title
      description := pyOr mediaData.description mediaData.lead
      formats := formats
      actions := actions
      subtitles := subs
      series := pyOr fullData.showTitle mediaData.title
      channel := mediaData.vendor }

/-- Consumes an exact literal at the head of the input and returns the
remainder, as a regex literal does. -/
def dropLit : List Char → List Char → Option (List Char)
  | [], cs => some cs
  | _ :: _, [] => none
  | p :: ps, c :: cs => if c == p then dropLit ps cs else none

/-- Python `s.startswith('http')`. -/
def hasHttpStart (s : String) : Bool :=
  (dropLit "http".data s.data).isSome

/-- The character class `[0-9a-f\-]` of both id patterns. -/
def isHexHyphen (c : Char) : Bool :=
  c.isDigit || ('a' ≤ c && c ≤ 'f') || c == '-'

/-- The id group `(?P<id>[0-9a-f\-]{36}|\d+)` shared by the Router's and the
Resolver's patterns, with Python `re` semantics at a fixed position: the
36-character alternative is tried first and, if it matches, is taken
regardless of what follows; otherwise `\d+` matches a maximal non-empty
ASCII digit run. -/
def matchIdGroup (cs : List Char) : Option (List Char) :=
  let first36 := cs.take 36
  if first36.length == 36 && first36.all isHexHyphen then some first36
  else
    let digits := cs.takeWhile Char.isDigit
    if digits == [] then none else some digits

/-- The alternation `(?P<bu>srf|rts|rsi|rtr|swi):` of `SRGSSRIE._VALID_URL`,
tried in the source's order.  The five literals are pairwise incompatible at
any one position, so first-match order and backtracking coincide. -/
def buMatch (cs : List Char) : Option (String × List Char) :=
  match dropLit "srf:".data cs with
  | some rest => some ("srf", rest)
  | none =>
    match dropLit "rts:".data cs with
    | some rest => some ("rts", rest)
    | none =>
      match dropLit "rsi:".data cs with
      | some rest => some ("rsi", rest)
      | none =>
        match dropLit "rtr:".data cs with
        | some rest => some ("rtr", rest)
        | none =>
          match dropLit "swi:".data cs with
          | some rest => some ("swi", rest)
          | none => none

/-- The tail `(?P<type>video|audio):(?P<id>...)` of `SRGSSRIE._VALID_URL`:
the type alternation (first-character distinct, hence deterministic), the
colon, then the id group. -/
def typeIdPart (cs : List Char) : Option (String × List Char) :=
  match dropLit "video:".data cs with
  | some rest => (matchIdGroup rest).map (fun id => ("video", id))
  | none =>
    match dropLit "audio:".data cs with
    | some rest => (matchIdGroup rest).map (fun id => ("audio", id))
    | none => none

/-- The optional group `(?:[^:]+:)?` of `SRGSSRIE._VALID_URL` followed by the
type and id part, with Python backtracking semantics: the greedy `[^:]+` can
only stop at the first colon, so the engine first tries to consume one
colon-terminated segment and parse the type and id after it, and on failure
retries without consuming the optional group. -/
def optSegPart (cs : List Char) : Option (String × List Char) :=
  let seg := cs.takeWhile (fun c => c != ':')
  if seg == [] then none
  else
    match dropLit (seg ++ [':']) cs with
    | some rest => typeIdPart rest
    | none => none

/-- `SRGSSRIE._VALID_URL` applied (via `re.match`, anchored at the start
only) to a canonical identifier, returning the captured `(bu, type, id)`
groups.  The pattern's first alternative
`https?://tp\.srgssr\.ch/p(?:/[^/]+)+\?urn=urn` requires the prefix `http`
and can never match a string starting with `srgssr:`, which every canonical
identifier produced by the Router does, so only the `srgssr` alternative is
embedded. -/
def resolverParse (s : String) : Option (String × String × String) :=
  match dropLit "srgssr:".data s.data with
  | none => none
  | some rest =>
    match buMatch rest with
    | none => none
    | some (bu, rest2) =>
      match optSegPart rest2 with
      | some (t, id) => some (bu, t, String.mk id)
      | none =>
        match typeIdPart rest2 with
        | some (t, id) => some (bu, t, String.mk id)
        | none => none

/-- The business unit codes of `SRGSSRPlayIE._VALID_URL`:
`(?P<bu>srf|rts|rsi|rtr|swissinfo)`. -/
def routerBuCodes : List String := ["srf", "rts", "rsi", "rtr", "swissinfo"]

/-- The canonical identifier `SRGSSRPlayIE._real_extract` builds:
`f'srgssr:{bu[:3]}:{media_type}:{media_id}'`. -/
def canonicalId (bu mediaType mediaId : String) : String :=
  "srgssr:" ++ String.mk (bu.data.take 3) ++ ":" ++ mediaType ++ ":" ++ mediaId

/-- A Python dict built from the attribute matches of one
`#EXT-X-MEDIA:TYPE=SUBTITLES` line, in `re.finditer` order
(`attrs[m.group(1)] = m.group(2)`, so a repeated key keeps the last value). -/
def buildAttrs (ms : List (String × String)) : List (String × String) :=
  ms.foldl (fun d kv => dictSet d kv.1 kv.2) []

/-- Dict key lookup on the ordered association list (keys are unique by
construction). -/
def dictGet? (d : List (String × String)) (k : String) : Option String :=
  (d.find? (fun p => p.1 == k)).map (fun p => p.2)

/-- One entry of the `_extract_m3u8_subtitles` loop, starting from the
parsed `([A-Z-]+)="([^"]*)"` attribute matches of the line (the `re`
scanning itself is standard-library work): entries without both `URI` and
`LANGUAGE` keys are dropped; a URI not starting with `http` is resolved
against the playlist URL with `urllib.parse.urljoin`, passed in as `uj`;
`NAME` defaults to the empty string. -/
def processSubEntry (uj : String → String → String) (m3u8Url : String)
    (ms : List (String × String)) : Option (String × SubTrack) :=
  let attrs := buildAttrs ms
  match dictGet? attrs "URI", dictGet? attrs "LANGUAGE" with
  | some uri, some lang =>
    let subUrl := if hasHttpStart uri then uri else uj m3u8Url uri
    some (lang, ⟨subUrl, some ((dictGet? attrs "NAME").getD "")⟩)
  | some _, none => none
  | none, _ => none

/-- Folding one subtitle entry into the accumulated mapping
(`subtitles.setdefault(lang, []).append(...)`). -/
def subStep (uj : String → String → String) (m3u8Url : String)
    (subs : List (String × List SubTrack)) (ms : List (String × String)) :
    List (String × List SubTrack) :=
  match processSubEntry uj m3u8Url ms with
  | none => subs
  | some (lang, t) => addSub subs lang t

/-- `SRGSSRIE._extract_m3u8_subtitles` over the already-scanned
`#EXT-X-MEDIA:TYPE=SUBTITLES` lines, each given as its attribute match
list. -/
def extractM3u8Subtitles (uj : String → String → String) (m3u8Url : String)
    (entries : List (List (String × String))) :
    List (String × List SubTrack) :=
  entries.foldl (subStep uj m3u8Url) []

/-! Helper lemmas shared by several claim proofs. -/

theorem find?_first {α : Type} (p : α → Bool) (pre : List α) (c : α)
    (post : List α) (hpre : ∀ x ∈ pre, p x = false) (hc : p c = true) :
    (pre ++ c :: post).find? p = some c := by
  induction pre with
  | nil => simpa using List.find?_cons_of_pos post hc
  | cons a l ih =>
    have ha : ¬ p a = true := by simp [hpre a (List.mem_cons_self a l)]
    rw [List.cons_append, List.find?_cons_of_neg _ ha]
    exact ih (fun x hx => hpre x (List.mem_cons_of_mem a hx))

theorem dictSet_of_absent (d : List (String × String)) (k v : String)
    (h : ∀ p ∈ d, p.1 ≠ k) : dictSet d k v = d ++ [(k, v)] := by
  unfold dictSet
  have hany : d.any (fun p => p.1 == k) = false := by
    rw [List.any_eq_false]
    intro p hp
    simpa using h p hp
  rw [hany]
  simp

theorem getMediaData_eq (bu mt mediaId : String) (full : MediaComposition)
    (h : full.chapterList.isEmpty = false) :
    getMediaData bu mt mediaId full =
      match checkBlockReason
          (selectChapter bu mediaId full.chapterList).blockReason with
      | .error e => .error e
      | .ok _ => .ok (selectChapter bu mediaId full.chapterList,
          parentChapterOf full.chapterList, full) := by
  unfold getMediaData
  rw [h]
  simp only [Bool.false_eq_true, if_false]

/-! Claim C2: block-reason handling in `_get_media_data`. -/

/-- C2.  For a fetched composition with a non-empty chapter list, if the
selected chapter's block reason is `GEOBLOCK`, extraction fails with the
geo-restriction error with countries `['CH']`; if its block reason is any
other member of the taxonomy, extraction fails with an expected error
carrying the mapped message; if the block reason is absent or outside the
taxonomy, no error is raised and `_get_media_data` returns its result. -/
theorem c2_block_reason_handling (bu mt mediaId : String)
    (full : MediaComposition) (hne : full.chapterList ≠ []) :
    ((selectChapter bu mediaId full.chapterList).blockReason = some "GEOBLOCK" →
      getMediaData bu mt mediaId full =
        .error (.geoRestricted
          "For legal reasons, this video is only available in Switzerland."
          ["CH"])) ∧
    (∀ br msg,
      (selectChapter bu mediaId full.chapterList).blockReason = some br →
      br ≠ "GEOBLOCK" → ERRORS br = some msg →
      getMediaData bu mt mediaId full =
        .error (.extractorError ("SRGSSR said: " ++ msg) true)) ∧
    ((∀ br, (selectChapter bu mediaId full.chapterList).blockReason = some br →
        ERRORS br = none) →
      ∃ r, getMediaData bu mt mediaId full = .ok r) := by
  have hempty : full.chapterList.isEmpty = false := by
    cases h : full.chapterList with
    | nil => exact absurd h hne
    | cons a l => rfl
  refine ⟨?_, ?_, ?_⟩
  · intro h
    rw [getMediaData_eq bu mt mediaId full hempty, h]
    rfl
  · intro br msg hbr hgeo hmsg
    have hbe : (br == "") = false := by
      rw [beq_eq_false_iff_ne]
      intro h
      subst h
      simp [ERRORS] at hmsg
    have hg : (br == "GEOBLOCK") = false := beq_eq_false_iff_ne.mpr hgeo
    have hmsg2 : IE_NAME ++ " said: " ++ msg = "SRGSSR said: " ++ msg := by
      rw [String.append_assoc]
      rfl
    have hcb : checkBlockReason (some br) =
        .error (.extractorError ("SRGSSR said: " ++ msg) true) := by
      simp only [checkBlockReason]
      rw [hbe]
      simp only [Bool.false_eq_true, if_false]
      rw [hmsg, hg]
      simp only [Bool.false_eq_true, if_false, hmsg2]
    rw [getMediaData_eq bu mt mediaId full hempty, hbr, hcb]
  · intro habs
    rw [getMediaData_eq bu mt mediaId full hempty]
    cases hbr : (selectChapter bu mediaId full.chapterList).blockReason with
    | none => exact ⟨_, rfl⟩
    | some br =>
      have hcb : checkBlockReason (some br) = .ok () := by
        simp only [checkBlockReason]
        by_cases hbe : br = ""
        · subst hbe
          rfl
        · rw [beq_eq_false_iff_ne.mpr hbe]
          simp only [Bool.false_eq_true, if_false]
          rw [habs br hbr]
      rw [hcb]
      exact ⟨_, rfl⟩

/-- Witness for C2 at a concrete geo-blocked composition. -/
theorem c2_block_reason_handling_witness :
    getMediaData "srf" "video" "42"
      { chapterList := [{ id := some "42", blockReason := some "GEOBLOCK" }] } =
      .error (.geoRestricted
        "For legal reasons, this video is only available in Switzerland."
        ["CH"]) :=
  (c2_block_reason_handling "srf" "video" "42"
      { chapterList := [{ id := some "42", blockReason := some "GEOBLOCK" }] }
      (by decide)).1 (by decide)

/-! Claim C3: chapter selection in `_get_media_data`. -/

/-- C3.  For a composition with a non-empty chapter list: when some chapter
matches the requested id (by id or synthesized URN), the first such chapter
is selected; when no chapter matches, the first chapter of the list is
selected. -/
theorem c3_chapter_selection (bu mediaId : String) (chs : List Chapter) :
    (∀ pre ch post, chs = pre ++ ch :: post →
      (∀ c ∈ pre, chapterMatches bu mediaId c = false) →
      chapterMatches bu mediaId ch = true →
      selectChapter bu mediaId chs = ch) ∧
    ((∀ c ∈ chs, chapterMatches bu mediaId c = false) →
      ∀ ch rest, chs = ch :: rest → selectChapter bu mediaId chs = ch) := by
  constructor
  · intro pre ch post hdecomp hpre hch
    subst hdecomp
    unfold selectChapter
    rw [find?_first _ pre ch post hpre hch]
  · intro hall ch rest hdecomp
    subst hdecomp
    unfold selectChapter
    have hnone : (ch :: rest).find? (chapterMatches bu mediaId) = none :=
      List.find?_eq_none.mpr (fun a ha => by simp [hall a ha])
    rw [hnone]
    rfl

/-- Witness for C3: the matching second chapter is selected over the first. -/
theorem c3_chapter_selection_witness :
    selectChapter "srf" "42" [{ id := some "1" }, { id := some "42" }] =
      { id := some "42" } :=
  (c3_chapter_selection "srf" "42"
      [{ id := some "1" }, { id := some "42" }]).1
    [{ id := some "1" }] { id := some "42" } [] rfl (by decide) (by decide)

/-! Claim C4: segment resource fallback to the parent chapter. -/

/-- C4.  For a selected segment chapter (truthy `fullLengthUrn`) whose own
resource list is empty, the enumerated resource list is exactly the parent
chapter's resource list, where the parent chapter is the first chapter
without a full-length URN, or the first chapter overall when every chapter
has one. -/
theorem c4_segment_resource_fallback (mediaData : Chapter) (chs : List Chapter)
    (hseg : truthy mediaData.fullLengthUrn = true)
    (hres : mediaData.resourceList = []) :
    enumeratedResources (truthy mediaData.fullLengthUrn) mediaData
        (parentChapterOf chs) = (parentChapterOf chs).resourceList ∧
    (∀ pre c post, chs = pre ++ c :: post →
      (∀ x ∈ pre, truthy x.fullLengthUrn = true) →
      truthy c.fullLengthUrn = false →
      parentChapterOf chs = c) ∧
    ((∀ x ∈ chs, truthy x.fullLengthUrn = true) →
      ∀ c rest, chs = c :: rest → parentChapterOf chs = c) := by
  refine ⟨?_, ?_, ?_⟩
  · rw [hseg]
    unfold enumeratedResources
    rw [hres]
    rfl
  · intro pre c post hdecomp hpre hc
    subst hdecomp
    unfold parentChapterOf
    rw [find?_first _ pre c post
      (fun x hx => by simp [hpre x hx]) (by simp [hc])]
  · intro hall c rest hdecomp
    subst hdecomp
    unfold parentChapterOf
    have hnone : (c :: rest).find? (fun ch => !truthy ch.fullLengthUrn) = none :=
      List.find?_eq_none.mpr (fun a ha => by simp [hall a ha])
    rw [hnone]
    rfl

/-- Witness for C4 at a concrete segment chapter and chapter list. -/
theorem c4_segment_resource_fallback_witness :
    enumeratedResources
        (truthy ({ fullLengthUrn := some "urn:srf:video:full",
                   resourceList := [] } : Chapter).fullLengthUrn)
        { fullLengthUrn := some "urn:srf:video:full", resourceList := [] }
        (parentChapterOf
          [{ fullLengthUrn := some "urn:srf:video:full", resourceList := [] },
           { resourceList := [{ url := some "http://cdn/full.mp4" }] }]) =
      (parentChapterOf
        [{ fullLengthUrn := some "urn:srf:video:full", resourceList := [] },
         { resourceList := [{ url := some "http://cdn/full.mp4" }] }]).resourceList :=
  (c4_segment_resource_fallback
      { fullLengthUrn := some "urn:srf:video:full", resourceList := [] }
      [{ fullLengthUrn := some "urn:srf:video:full", resourceList := [] },
       { resourceList := [{ url := some "http://cdn/full.mp4" }] }]
      (by decide) (by decide)).1

/-! Claim C7: HD ranks strictly above SD among direct HTTP/HTTPS formats. -/

theorem direct_quality_eq (isSeg : Bool) (mi mo : Option Int) (r : Resource)
    (f : Format) (h : processResource isSeg mi mo r = some (.direct f)) :
    f.quality = qualityRank r.quality := by
  unfold processResource at h
  split at h
  · exact Option.noConfusion h
  · split at h
    · split at h
      · exact FormatAction.noConfusion (Option.some.inj h)
      · split at h
        · exact FormatAction.noConfusion (Option.some.inj h)
        · exact Option.noConfusion h
    · split at h
      · have h2 := Option.some.inj h
        have h3 := FormatAction.direct.inj h2
        rw [← h3]
      · exact Option.noConfusion h

/-- C7.  Any direct format entry built from a resource with quality tier
`HD` has a strictly higher quality value than any direct format entry built
from a resource with quality tier `SD`. -/
theorem c7_quality_ordering (isSeg : Bool) (mi mo : Option Int)
    (r1 r2 : Resource) (f1 f2 : Format)
    (h1 : processResource isSeg mi mo r1 = some (.direct f1))
    (h2 : processResource isSeg mi mo r2 = some (.direct f2))
    (hq1 : r1.quality = some "HD") (hq2 : r2.quality = some "SD") :
    f2.quality < f1.quality := by
  have e1 : f1.quality = qualityRank r1.quality := direct_quality_eq _ _ _ _ _ h1
  have e2 : f2.quality = qualityRank r2.quality := direct_quality_eq _ _ _ _ _ h2
  rw [e1, e2, hq1, hq2]
  decide

/-- Witness for C7 at two concrete HTTP resources. -/
theorem c7_quality_ordering_witness :
    (⟨"HTTP-SD", "http://cdn/sd.mp4", qualityRank (some "SD")⟩ : Format).quality <
      (⟨"HTTP-HD", "http://cdn/hd.mp4", qualityRank (some "HD")⟩ : Format).quality :=
  c7_quality_ordering false none none
    { url := some "http://cdn/hd.mp4", protocol := some "HTTP", quality := some "HD" }
    { url := some "http://cdn/sd.mp4", protocol := some "HTTP", quality := some "SD" }
    ⟨"HTTP-HD", "http://cdn/hd.mp4", qualityRank (some "HD")⟩
    ⟨"HTTP-SD", "http://cdn/sd.mp4", qualityRank (some "SD")⟩
    (by decide) (by decide) rfl rfl

/-! Claim C8: the result id is always the requested media id. -/

/-- C8.  Whenever extraction succeeds, the `id` field of the normalized
result equals the requested media id, regardless of which chapter was
selected. -/
theorem c8_result_id_invariant (bu mt mediaId : String)
    (full : MediaComposition) (r : ExtractionResult)
    (h : realExtract bu mt mediaId full = .ok r) : r.id = mediaId := by
  unfold realExtract at h
  cases hg : getMediaData bu mt mediaId full with
  | error e =>
    rw [hg] at h
    exact Except.noConfusion h
  | ok x =>
    obtain ⟨md, par, fd⟩ := x
    rw [hg] at h
    have h2 := Except.ok.inj h
    rw [← h2]

/-- Witness for C8: a request whose id matches no chapter still reports the
requested id. -/
theorem c8_result_id_invariant_witness :
    realExtract "srf" "audio" "999"
        { chapterList := [{ id := some "1" }] } =
      .ok { id := "999" } ∧
    ({ id := "999" } : ExtractionResult).id = "999" :=
  ⟨rfl,
   c8_result_id_invariant "srf" "audio" "999"
     { chapterList := [{ id := some "1" }] } { id := "999" } rfl⟩

/-! Claim C9: an HLS segment URL without a query string is passed on
unchanged. -/

/-- C9.  For an HLS resource of a segment chapter with known mark-in and
mark-out whose URL contains no `?`, no start/end parameters are appended:
the resource is delegated to the HLS parser with the URL unchanged. -/
theorem c9_no_query_passthrough (mi mo : Int) (r : Resource) (u : String)
    (hu : r.url = some u) (hne : (u == "") = false)
    (hp : r.protocol = some "HLS")
    (ht : (r.tokenType == some "AKAMAI") = false)
    (hq : containsChar u '?' = false) :
    processResource true (some mi) (some mo) r =
      some (.delegatedHls u (formatIdOf r)) := by
  have hw : constructedUrl true (some mi) (some mo) r = u := by
    unfold constructedUrl
    rw [hp, hu]
    unfold applySegmentWindow
    simp only [Option.getD_some]
    rw [hq]
    simp
  have htr : truthy r.url = true := by
    rw [hu]
    show (!(u == "")) = true
    rw [hne]
    rfl
  unfold processResource
  rw [htr, hp, hw]
  simp only [ht]
  simp

/-- Witness for C9 at a concrete query-less segment resource. -/
theorem c9_no_query_passthrough_witness :
    processResource true (some 1000) (some 3000)
        { url := some "http://cdn/seg.m3u8", protocol := some "HLS" } =
      some (.delegatedHls "http://cdn/seg.m3u8"
        (formatIdOf { url := some "http://cdn/seg.m3u8",
                      protocol := some "HLS" })) :=
  c9_no_query_passthrough 1000 3000
    { url := some "http://cdn/seg.m3u8", protocol := some "HLS" }
    "http://cdn/seg.m3u8" rfl rfl rfl rfl (by decide)

/-! Claim C5: the HLS segment time window is appended to an existing query
string. -/

/-- C5.  For an HLS resource of a segment chapter with mark-in 1000 ms and
mark-out 3000 ms whose URL carries a query string, the rewritten URL keeps
the base and the parsed pre-existing parameters in order and appends
`start=1.000` and `end=3.000`. -/
theorem c5_hls_time_window (url : String) (ps : List (String × String))
    (hq : containsChar url '?' = true)
    (hps : parseQuery (String.mk (partitionAt '?' url.data).2) = ps)
    (hstart : ∀ p ∈ ps, p.1 ≠ "start")
    (hend : ∀ p ∈ ps, p.1 ≠ "end") :
    applySegmentWindow true (some 1000) (some 3000) (some "HLS") url =
      String.mk (partitionAt '?' url.data).1 ++ "?" ++
        renderQuery (ps ++ [("start", "1.000"), ("end", "3.000")]) := by
  have hc : (some "HLS" == some "HLS" && containsChar url '?') = true := by
    rw [hq]
    rfl
  have hfs1 : formatSeconds 1000 = "1.000" := rfl
  have hfs3 : formatSeconds 3000 = "3.000" := rfl
  have h1 : dictSet ps "start" "1.000" = ps ++ [("start", "1.000")] :=
    dictSet_of_absent ps "start" "1.000" hstart
  have h2 : dictSet (ps ++ [("start", "1.000")]) "end" "3.000" =
      ps ++ [("start", "1.000"), ("end", "3.000")] := by
    rw [dictSet_of_absent]
    · rw [List.append_assoc]
      rfl
    · intro p hp
      rcases List.mem_append.mp hp with h | h
      · exact hend p h
      · simp only [List.mem_singleton] at h
        rw [h]
        decide
  simp only [applySegmentWindow, hc, if_true, hfs1, hfs3, hps, h1, h2]

/-- Witness for C5 at a concrete segment URL with two query parameters. -/
theorem c5_hls_time_window_witness :
    applySegmentWindow true (some 1000) (some 3000) (some "HLS")
        "http://cdn/seg.m3u8?a=1&b=2" =
      "http://cdn/seg.m3u8?a=1&b=2&start=1.000&end=3.000" :=
  c5_hls_time_window "http://cdn/seg.m3u8?a=1&b=2" [("a", "1"), ("b", "2")]
    (by decide) (by decide) (by decide) (by decide)

/-! Claim C6: podcast formats for the primary chapter. -/

/-- C6.  For a primary chapter (`position == 0`) with a truthy podcast SD
URL, the locally built format list contains an entry `PODCAST-SD` ranked
strictly below every HD-tagged entry; symmetrically a truthy podcast HD URL
yields a `PODCAST-HD` entry ranked strictly above every SD-tagged entry;
for a chapter whose position is not 0, no podcast formats are added. -/
theorem c6_podcast_formats (isSeg : Bool) (mediaData parent : Chapter) :
    (mediaData.position = some 0 →
      ∀ u, mediaData.podcastSdUrl = some u → (u == "") = false →
      ∃ f ∈ allFormats isSeg mediaData parent,
        f.format_id = "PODCAST-SD" ∧ f.quality = qualityRank (some "SD") ∧
        ∀ g ∈ allFormats isSeg mediaData parent,
          g.quality = qualityRank (some "HD") → f.quality < g.quality) ∧
    (mediaData.position = some 0 →
      ∀ u, mediaData.podcastHdUrl = some u → (u == "") = false →
      ∃ g ∈ allFormats isSeg mediaData parent,
        g.format_id = "PODCAST-HD" ∧ g.quality = qualityRank (some "HD") ∧
        ∀ f ∈ allFormats isSeg mediaData parent,
          f.quality = qualityRank (some "SD") → f.quality < g.quality) ∧
    (mediaData.position ≠ some 0 →
      podcastFormats mediaData = [] ∧
      allFormats isSeg mediaData parent =
        directFormats (extractActions isSeg mediaData parent)) := by
  refine ⟨?_, ?_, ?_⟩
  · intro hpos u hu hne
    have hposb : (mediaData.position == some (0 : Int)) = true := by
      rw [hpos]
      rfl
    have h1 : podcastUrlField mediaData "S" = some u := hu
    have hmem : (⟨"PODCAST-SD", u, qualityRank (some "SD")⟩ : Format) ∈
        podcastFormats mediaData := by
      unfold podcastFormats
      rw [hposb]
      simp only [if_true, List.filterMap_cons, h1, hne, Bool.false_eq_true,
        if_false]
      exact List.mem_cons_self _ _
    refine ⟨⟨"PODCAST-SD", u, qualityRank (some "SD")⟩,
      List.mem_append.mpr (Or.inr hmem), rfl, rfl, ?_⟩
    intro g _ hgq
    rw [hgq]
    show qualityRank (some "SD") < qualityRank (some "HD")
    decide
  · intro hpos u hu hne
    have hposb : (mediaData.position == some (0 : Int)) = true := by
      rw [hpos]
      rfl
    have h1 : podcastUrlField mediaData "H" = some u := hu
    have hmem : (⟨"PODCAST-HD", u, qualityRank (some "HD")⟩ : Format) ∈
        podcastFormats mediaData := by
      unfold podcastFormats
      rw [hposb]
      simp only [if_true, List.filterMap_cons, h1, hne, Bool.false_eq_true,
        if_false]
      split
      · exact List.mem_cons_self _ _
      · exact List.mem_cons_of_mem _ (List.mem_cons_self _ _)
    refine ⟨⟨"PODCAST-HD", u, qualityRank (some "HD")⟩,
      List.mem_append.mpr (Or.inr hmem), rfl, rfl, ?_⟩
    intro f _ hfq
    rw [hfq]
    show qualityRank (some "SD") < qualityRank (some "HD")
    decide
  · intro hpos
    have hposb : (mediaData.position == some (0 : Int)) = false :=
      beq_eq_false_iff_ne.mpr hpos
    have hpf : podcastFormats mediaData = [] := by
      unfold podcastFormats
      rw [hposb]
      simp
    refine ⟨hpf, ?_⟩
    unfold allFormats
    rw [hpf, List.append_nil]

/-- Witness for C6 at a concrete primary audio chapter with a podcast SD
URL. -/
theorem c6_podcast_formats_witness :
    ∃ f ∈ allFormats false
        { position := some 0, podcastSdUrl := some "http://pod/sd.mp3" } {},
      f.format_id = "PODCAST-SD" ∧ f.quality = qualityRank (some "SD") ∧
      ∀ g ∈ allFormats false
          { position := some 0, podcastSdUrl := some "http://pod/sd.mp3" } {},
        g.quality = qualityRank (some "HD") → f.quality < g.quality :=
  (c6_podcast_formats false
      { position := some 0, podcastSdUrl := some "http://pod/sd.mp3" } {}).1
    rfl "http://pod/sd.mp3" rfl rfl

/-! Claim C10: filtering in the direct m3u8 subtitle scan. -/

/-- C10.  In the direct `#EXT-X-MEDIA:TYPE=SUBTITLES` scan, an entry
missing a `URI` or a `LANGUAGE` attribute contributes no subtitle track;
a retained entry's URI is resolved against the playlist URL exactly when it
does not start with `http`, and its `NAME` defaults to the empty string
when absent. -/
theorem c10_subtitle_scan_filtering (uj : String → String → String)
    (m3u8Url : String) (ms : List (String × String)) :
    ((dictGet? (buildAttrs ms) "URI" = none ∨
        dictGet? (buildAttrs ms) "LANGUAGE" = none) →
      processSubEntry uj m3u8Url ms = none ∧
      ∀ subs, subStep uj m3u8Url subs ms = subs) ∧
    (∀ lang t, processSubEntry uj m3u8Url ms = some (lang, t) →
      dictGet? (buildAttrs ms) "LANGUAGE" = some lang ∧
      (∃ uri, dictGet? (buildAttrs ms) "URI" = some uri ∧
        t.url = if hasHttpStart uri then uri else uj m3u8Url uri) ∧
      t.name = some ((dictGet? (buildAttrs ms) "NAME").getD "") ∧
      (dictGet? (buildAttrs ms) "NAME" = none → t.name = some "")) := by
  constructor
  · intro h
    have hnone : processSubEntry uj m3u8Url ms = none := by
      simp only [processSubEntry]
      rcases h with h | h
      · rw [h]
      · rw [h]
        cases dictGet? (buildAttrs ms) "URI" <;> rfl
    refine ⟨hnone, ?_⟩
    intro subs
    unfold subStep
    rw [hnone]
  · intro lang t h
    simp only [processSubEntry] at h
    cases hu : dictGet? (buildAttrs ms) "URI" with
    | none =>
      rw [hu] at h
      exact Option.noConfusion h
    | some uri =>
      cases hl : dictGet? (buildAttrs ms) "LANGUAGE" with
      | none =>
        rw [hu, hl] at h
        exact Option.noConfusion h
      | some lg =>
        rw [hu, hl] at h
        have h2 := Option.some.inj h
        rw [Prod.mk.injEq] at h2
        obtain ⟨hlg, ht⟩ := h2
        subst hlg
        subst ht
        refine ⟨rfl, ⟨uri, rfl, rfl⟩, rfl, ?_⟩
        intro hn
        rw [hn]
        rfl

/-- Witness for C10: an entry with a relative URI and no NAME resolves
against the playlist URL and gets the empty name. -/
theorem c10_subtitle_scan_filtering_witness :
    dictGet? (buildAttrs [("LANGUAGE", "de"), ("URI", "subs/de.m3u8")])
        "LANGUAGE" = some "de" ∧
    (∃ uri, dictGet? (buildAttrs [("LANGUAGE", "de"), ("URI", "subs/de.m3u8")])
        "URI" = some uri ∧
      (⟨"http://pl/master.m3u8" ++ "/" ++ "subs/de.m3u8", some ""⟩ : SubTrack).url =
        if hasHttpStart uri then uri
        else (fun a b => a ++ "/" ++ b) "http://pl/master.m3u8" uri) ∧
    (⟨"http://pl/master.m3u8" ++ "/" ++ "subs/de.m3u8", some ""⟩ : SubTrack).name =
      some ((dictGet? (buildAttrs [("LANGUAGE", "de"), ("URI", "subs/de.m3u8")])
        "NAME").getD "") ∧
    (dictGet? (buildAttrs [("LANGUAGE", "de"), ("URI", "subs/de.m3u8")])
        "NAME" = none →
      (⟨"http://pl/master.m3u8" ++ "/" ++ "subs/de.m3u8", some ""⟩ : SubTrack).name =
        some "") :=
  (c10_subtitle_scan_filtering (fun a b => a ++ "/" ++ b) "http://pl/master.m3u8"
      [("LANGUAGE", "de"), ("URI", "subs/de.m3u8")]).2
    "de" ⟨"http://pl/master.m3u8" ++ "/" ++ "subs/de.m3u8", some ""⟩ rfl

/-! Claim C1: the Router-to-Resolver identifier round trip. -/

theorem dropLit_self (p r : List Char) : dropLit p (p ++ r) = some r := by
  induction p with
  | nil => rfl
  | cons a ps ih =>
    simp only [List.cons_append, dropLit, beq_self_eq_true, if_true]
    exact ih

theorem dropLit_eq_append {p : List Char} :
    ∀ {cs r : List Char}, dropLit p cs = some r → cs = p ++ r := by
  induction p with
  | nil =>
    intro cs r h
    have h2 : cs = r := Option.some.inj h
    rw [h2]
    rfl
  | cons a ps ih =>
    intro cs r h
    cases cs with
    | nil => exact Option.noConfusion h
    | cons c cs2 =>
      simp only [dropLit] at h
      by_cases hca : (c == a) = true
      · rw [if_pos hca] at h
        have h2 := ih h
        rw [eq_of_beq hca, h2]
        rfl
      · rw [if_neg hca] at h
        exact Option.noConfusion h

theorem tw_all {α : Type} (p : α → Bool) (l : List α)
    (h : ∀ a ∈ l, p a = true) : l.takeWhile p = l := by
  induction l with
  | nil => rfl
  | cons a t ih =>
    rw [List.takeWhile_cons, if_pos (h a (List.mem_cons_self a t))]
    rw [ih (fun x hx => h x (List.mem_cons_of_mem a hx))]

theorem matchIdGroup_spec {s id : List Char} (h : matchIdGroup s = some id) :
    matchIdGroup id = some id ∧ ∀ c ∈ id, (c == ':') = false := by
  simp only [matchIdGroup] at h
  by_cases h36 : ((s.take 36).length == 36 && (s.take 36).all isHexHyphen) = true
  · rw [if_pos h36] at h
    have hid : id = s.take 36 := (Option.some.inj h).symm
    subst hid
    rw [Bool.and_eq_true] at h36
    obtain ⟨hlen, hall⟩ := h36
    have hlen' : (s.take 36).length = 36 := eq_of_beq hlen
    constructor
    · simp only [matchIdGroup]
      have ht : (s.take 36).take 36 = s.take 36 :=
        List.take_of_length_le (Nat.le_of_eq hlen')
      rw [ht]
      have hcond : ((s.take 36).length == 36 && (s.take 36).all isHexHyphen) =
          true := by
        rw [Bool.and_eq_true]
        exact ⟨hlen, hall⟩
      rw [if_pos hcond]
    · intro c hc
      have hmem : isHexHyphen c = true := List.all_eq_true.mp hall c hc
      by_cases hcc : c = ':'
      · subst hcc
        exact absurd hmem (by decide)
      · exact beq_eq_false_iff_ne.mpr hcc
  · rw [if_neg h36] at h
    by_cases hd : ((s.takeWhile Char.isDigit) == ([] : List Char)) = true
    · rw [if_pos hd] at h
      exact Option.noConfusion h
    · rw [if_neg hd] at h
      have hid : id = s.takeWhile Char.isDigit := (Option.some.inj h).symm
      subst hid
      have hdig : ∀ c ∈ s.takeWhile Char.isDigit, c.isDigit = true :=
        fun c hc => List.mem_takeWhile_imp hc
      have hne : s.takeWhile Char.isDigit ≠ [] := by
        intro e
        rw [e] at hd
        exact hd rfl
      have hlt : (s.takeWhile Char.isDigit).length < 36 := by
        by_contra hge
        push_neg at hge
        apply h36
        have hpre : s.take 36 = (s.takeWhile Char.isDigit).take 36 := by
          conv_lhs => rw [← List.takeWhile_append_dropWhile Char.isDigit s]
          rw [List.take_append_of_le_length hge]
        rw [Bool.and_eq_true]
        constructor
        · rw [hpre, List.length_take, Nat.min_eq_left hge]
          rfl
        · rw [hpre, List.all_eq_true]
          intro c hc
          have hcm : c ∈ s.takeWhile Char.isDigit := List.take_subset _ _ hc
          have hcd := hdig c hcm
          unfold isHexHyphen
          rw [hcd]
          rfl
      constructor
      · simp only [matchIdGroup]
        have ht : (s.takeWhile Char.isDigit).take 36 = s.takeWhile Char.isDigit :=
          List.take_of_length_le (Nat.le_of_lt hlt)
        rw [ht]
        have hcond : ((s.takeWhile Char.isDigit).length == 36 &&
            (s.takeWhile Char.isDigit).all isHexHyphen) = false := by
          rw [beq_eq_false_iff_ne.mpr (Nat.ne_of_lt hlt), Bool.false_and]
        rw [hcond]
        simp only [Bool.false_eq_true, if_false]
        rw [tw_all Char.isDigit _ hdig, if_neg (by rw [beq_eq_false_iff_ne.mpr hne]; exact Bool.false_ne_true)]
      · intro c hc
        have hcd := hdig c hc
        by_cases hcc : c = ':'
        · subst hcc
          exact absurd hcd (by decide)
        · exact beq_eq_false_iff_ne.mpr hcc

theorem typeIdPart_none (id : List Char)
    (h : ∀ c ∈ id, (c == ':') = false) : typeIdPart id = none := by
  have hv : dropLit "video:".data id = none := by
    cases hd : dropLit "video:".data id with
    | none => rfl
    | some r =>
      have he := dropLit_eq_append hd
      have hcolon : (':' : Char) ∈ id := by
        rw [he]
        exact List.mem_append.mpr (Or.inl (by decide))
      exact absurd (h ':' hcolon) (by decide)
  have ha : dropLit "audio:".data id = none := by
    cases hd : dropLit "audio:".data id with
    | none => rfl
    | some r =>
      have he := dropLit_eq_append hd
      have hcolon : (':' : Char) ∈ id := by
        rw [he]
        exact List.mem_append.mpr (Or.inl (by decide))
      exact absurd (h ':' hcolon) (by decide)
  unfold typeIdPart
  rw [hv, ha]

theorem typeIdPart_video (id : List Char) (h : matchIdGroup id = some id) :
    typeIdPart ("video".data ++ ':' :: id) = some ("video", id) := by
  show (matchIdGroup id).map (fun i => ("video", i)) = some ("video", id)
  rw [h]
  rfl

theorem typeIdPart_audio (id : List Char) (h : matchIdGroup id = some id) :
    typeIdPart ("audio".data ++ ':' :: id) = some ("audio", id) := by
  show (matchIdGroup id).map (fun i => ("audio", i)) = some ("audio", id)
  rw [h]
  rfl

theorem optSeg_video (id : List Char) :
    optSegPart ("video".data ++ ':' :: id) = typeIdPart id := rfl

theorem optSeg_audio (id : List Char) :
    optSegPart ("audio".data ++ ':' :: id) = typeIdPart id := rfl

theorem buMatch_srf (R : List Char) :
    buMatch ("srf".data ++ ':' :: R) = some ("srf", R) := rfl

theorem buMatch_rts (R : List Char) :
    buMatch ("rts".data ++ ':' :: R) = some ("rts", R) := rfl

theorem buMatch_rsi (R : List Char) :
    buMatch ("rsi".data ++ ':' :: R) = some ("rsi", R) := rfl

theorem buMatch_rtr (R : List Char) :
    buMatch ("rtr".data ++ ':' :: R) = some ("rtr", R) := rfl

theorem buMatch_swi (R : List Char) :
    buMatch ("swi".data ++ ':' :: R) = some ("swi", R) := rfl

theorem resolverParse_build (bu3 t : String) (id : List Char)
    (hbu : buMatch (bu3.data ++ ':' :: (t.data ++ ':' :: id)) =
      some (bu3, t.data ++ ':' :: id))
    (hopt : optSegPart (t.data ++ ':' :: id) = typeIdPart id)
    (hA : typeIdPart id = none)
    (htp : typeIdPart (t.data ++ ':' :: id) = some (t, id)) :
    resolverParse ("srgssr:" ++ bu3 ++ ":" ++ t ++ ":" ++ String.mk id) =
      some (bu3, t, String.mk id) := by
  have hdata : ("srgssr:" ++ bu3 ++ ":" ++ t ++ ":" ++ String.mk id).data =
      "srgssr:".data ++ (bu3.data ++ ':' :: (t.data ++ ':' :: id)) := by
    simp only [String.data_append, List.append_assoc]
    rfl
  simp only [resolverParse, hdata, dropLit_self, hbu, hopt, hA, htp]

/-- C1 counterexample.  The claim fails for the business unit `swissinfo`:
the literal canonical template `srgssr:{bu}:{type}:{id}` with the extracted
`bu` does not match the Resolver's pattern at all, and the identifier the
Router actually builds truncates the business unit to `swi`, so re-parsing
yields a different triple. -/
theorem c1_round_trip_counterexample :
    resolverParse ("srgssr:" ++ "swissinfo" ++ ":" ++ "video" ++ ":" ++
      "6348260") = none ∧
    canonicalId "swissinfo" "video" "6348260" = "srgssr:swi:video:6348260" ∧
    resolverParse (canonicalId "swissinfo" "video" "6348260") =
      some ("swi", "video", "6348260") ∧
    ("swi" : String) ≠ "swissinfo" := by
  refine ⟨by decide, rfl, by decide, by decide⟩

/-- C1 as amended.  For every triple the Router can extract (business unit
among its five codes, type `video` or `audio`, id produced by the shared id
group on any input text), the canonical identifier the Router builds,
`srgssr:{bu[:3]}:{type}:{id}`, re-parses under the Resolver's pattern to
exactly `(bu[:3], type, id)`.  For the four three-letter business units
this is the identical extracted triple; for `swissinfo` the re-parsed
business unit is the truncation `swi`. -/
theorem c1_round_trip_amended (bu t : String) (s id : List Char)
    (hbu : bu ∈ routerBuCodes)
    (ht : t = "video" ∨ t = "audio")
    (hid : matchIdGroup s = some id) :
    resolverParse (canonicalId bu t (String.mk id)) =
      some (String.mk (bu.data.take 3), t, String.mk id) := by
  obtain ⟨hid2, hcf⟩ := matchIdGroup_spec hid
  have hA : typeIdPart id = none := typeIdPart_none id hcf
  simp only [routerBuCodes, List.mem_cons, List.mem_singleton,
    List.not_mem_nil, or_false] at hbu
  rcases hbu with rfl | rfl | rfl | rfl | rfl <;> rcases ht with rfl | rfl
  · exact resolverParse_build "srf" "video" id (buMatch_srf _)
      (optSeg_video id) hA (typeIdPart_video id hid2)
  · exact resolverParse_build "srf" "audio" id (buMatch_srf _)
      (optSeg_audio id) hA (typeIdPart_audio id hid2)
  · exact resolverParse_build "rts" "video" id (buMatch_rts _)
      (optSeg_video id) hA (typeIdPart_video id hid2)
  · exact resolverParse_build "rts" "audio" id (buMatch_rts _)
      (optSeg_audio id) hA (typeIdPart_audio id hid2)
  · exact resolverParse_build "rsi" "video" id (buMatch_rsi _)
      (optSeg_video id) hA (typeIdPart_video id hid2)
  · exact resolverParse_build "rsi" "audio" id (buMatch_rsi _)
      (optSeg_audio id) hA (typeIdPart_audio id hid2)
  · exact resolverParse_build "rtr" "video" id (buMatch_rtr _)
      (optSeg_video id) hA (typeIdPart_video id hid2)
  · exact resolverParse_build "rtr" "audio" id (buMatch_rtr _)
      (optSeg_audio id) hA (typeIdPart_audio id hid2)
  · exact resolverParse_build "swi" "video" id (buMatch_swi _)
      (optSeg_video id) hA (typeIdPart_video id hid2)
  · exact resolverParse_build "swi" "audio" id (buMatch_swi _)
      (optSeg_audio id) hA (typeIdPart_audio id hid2)

/-- Witness for the amended C1 at a concrete numeric id extracted from URL
text with trailing characters. -/
theorem c1_round_trip_amended_witness :
    resolverParse (canonicalId "srf" "video" (String.mk "6348260".data)) =
      some (String.mk ("srf".data.take 3), "video",
        String.mk "6348260".data) :=
  c1_round_trip_amended "srf" "video" "6348260&autoplay=1".data "6348260".data
    (by decide) (Or.inl rfl) (by decide)

end SRGSSR
